import Mathlib

/-!
Verification development for the Omni-browser proxy repository.

The repository is a forward HTTP proxy with three near-identical script
variants: a Netlify function handler (input validation, HTML link rewriting,
base64 envelope for binary bodies), an Express server variant, and a
server variant carrying the SSRF guard (isPrivateIP, resolveAndCheck),
header sanitization and upstream error mapping.

The definitions below are shallow embeddings of the JavaScript source.
Interactions with the outside world (DNS lookup, HTTP fetch, URL parsing,
the cheerio HTML parser and serializer) are passed in as explicit function
arguments; everything the source computes itself is modelled concretely.
-/

/-- Boolean test that the first character list is a prefix of the second.
Models the JavaScript String.prototype.startsWith on the character level. -/
def startsWithChars : List Char → List Char → Bool
  | [], _ => true
  | _ :: _, [] => false
  | p :: ps, c :: cs => p == c && startsWithChars ps cs

/-- Boolean substring containment; models JavaScript String.prototype.includes
on the character level. -/
def isSubstr (needle : List Char) : List Char → Bool
  | [] => startsWithChars needle []
  | c :: t => startsWithChars needle (c :: t) || isSubstr needle t

/-- Character list of a string with every character lowercased; models the
JavaScript toLowerCase on the ASCII strings handled by the proxy. -/
def lowerChars (s : String) : List Char := s.toList.map Char.toLower

/-- Splitting a character list at every dot, keeping empty pieces; models
the JavaScript split with separator dot: the result is never empty, and
splitting the empty string yields one empty piece. -/
def splitDot : List Char → List (List Char)
  | [] => [[]]
  | c :: rest =>
    match splitDot rest with
    | [] => [[c]]
    | g :: gs => if c = '.' then [] :: g :: gs else (c :: g) :: gs

/-- Value of a decimal digit character, none for any other character. -/
def digVal (c : Char) : Option Nat :=
  if c.isDigit then some (c.toNat - 48) else none

/-- Accumulator-style decimal parse of a character list; none as soon as a
non-digit appears. -/
def parseDigitsAcc : Nat → List Char → Option Nat
  | acc, [] => some acc
  | acc, c :: cs =>
    match digVal c with
    | some d => parseDigitsAcc (acc * 10 + d) cs
    | none => none

/-- Model of the JavaScript Number conversion as used by the classifier on
the pieces of a split address string: the empty string converts to 0 and a
string of decimal digits converts to its value; every other input is NaN,
modelled as none.  This covers exactly the strings that occur for network
addresses returned by DNS resolution (decimal dotted quads and IPv6 text). -/
def jsNum (cs : List Char) : Option Nat := parseDigitsAcc 0 cs

/-- The decimal digit character for a value below ten. -/
def digitChar (d : Nat) : Char := Char.ofNat (48 + d)

/-- Canonical decimal rendering of a natural number as a character list. -/
def natToDec (n : Nat) : List Char :=
  if _h : n < 10 then [digitChar n]
  else natToDec (n / 10) ++ [digitChar (n % 10)]
termination_by n
decreasing_by
  omega

/-- Character list of a dotted-quad IPv4 address built from four octet
values in canonical decimal form. -/
def ip4Chars (a b c d : Nat) : List Char :=
  natToDec a ++ '.' :: (natToDec b ++ '.' :: (natToDec c ++ '.' :: natToDec d))

/-- String form of a dotted-quad IPv4 address. -/
def ip4Str (a b c d : Nat) : String := String.mk (ip4Chars a b c d)

/-- The textual prefix of an IPv4-mapped IPv6 address. -/
def mappedPrefix : List Char := "::ffff:".toList

/-- String form of an IPv4-mapped IPv6 address wrapping a dotted quad. -/
def mappedIp4Str (a b c d : Nat) : String :=
  String.mk (mappedPrefix ++ ip4Chars a b c d)

/-- Range test used by the 172.16.0.0/12 branch of the classifier: the
JavaScript comparisons b greater-equal 16 and b less-equal 31 are false when
b is NaN, modelled by the none case. -/
def optInRange : Option Nat → Bool
  | some bv => decide (16 ≤ bv) && decide (bv ≤ 31)
  | none => false

/-- The IPv4 private-range conditions of isPrivateIP, in source order, on the
first two (JavaScript Number converted) pieces of the split address. -/
def ipv4PrivateCheck (a b : Option Nat) : Bool :=
  a == some 10 ||
  (a == some 172 && optInRange b) ||
  (a == some 192 && b == some 168) ||
  a == some 127 ||
  (a == some 169 && b == some 254)

/-- The guarded IPv4 branch of the classifier: the range checks run only
when the split produced exactly four pieces. -/
def ipv4OfNums : List (Option Nat) → Bool
  | [a, b, _, _] => ipv4PrivateCheck a b
  | _ => false

/-- Body of isPrivateIP after the empty-input check and the IPv4-mapped
prefix strip: split at dots, convert the pieces with Number, apply the IPv4
range checks when there are exactly four pieces, then the IPv6 checks. -/
def classifyChars (ip : List Char) : Bool :=
  if ipv4OfNums ((splitDot ip).map jsNum) then true
  else if ip = "::1".toList then true
  else if startsWithChars "fe80".toList ip then true
  else if startsWithChars "fc".toList ip then true
  else if startsWithChars "fd".toList ip then true
  else false

/-- Embedding of isPrivateIP from the server source on character lists: an
empty input is private; an IPv4-mapped IPv6 prefix is stripped first (the
source replaces the first occurrence, which under the startsWith guard is
the prefix, hence the drop of its seven characters). -/
def isPrivateIPChars (ip0 : List Char) : Bool :=
  if ip0 = [] then true
  else classifyChars (if startsWithChars mappedPrefix ip0 then ip0.drop 7 else ip0)

/-- Embedding of isPrivateIP on strings. -/
def isPrivateIP (ip : String) : Bool := isPrivateIPChars ip.toList

/-- Embedding of isPrivateIP on a possibly absent argument: the source test
treats null and undefined the same as the empty string and returns true. -/
def isPrivateIPJS : Option String → Bool
  | none => true
  | some s => isPrivateIP s

/-- Embedding of resolveAndCheck: the DNS lookup is an explicit oracle from
hostnames to an optional list of resolved address strings, none modelling a
lookup that throws.  The source returns false when the lookup throws, false
when any resolved address is private, and true otherwise. -/
def resolveAndCheck (dns : String → Option (List String)) (hostname : String) : Bool :=
  match dns hostname with
  | none => false
  | some addresses => addresses.all (fun a => !isPrivateIP a)

/-- A digit character below ten is recognised as a digit. -/
theorem digitChar_isDigit : ∀ d, d < 10 → (digitChar d).isDigit = true := by
  decide

/-- The digit value function inverts the digit character function. -/
theorem digVal_digitChar : ∀ d, d < 10 → digVal (digitChar d) = some d := by
  decide

/-- Every character printed by the decimal renderer is a digit. -/
theorem natToDec_digits (n : Nat) : ∀ c ∈ natToDec n, c.isDigit = true := by
  induction n using Nat.strong_induction_on with
  | _ n ih =>
    rw [natToDec]
    split
    · intro c hc
      rcases List.mem_singleton.mp hc with rfl
      exact digitChar_isDigit n (by assumption)
    · intro c hc
      rcases List.mem_append.mp hc with h1 | h1
      · exact ih (n / 10) (by omega) c h1
      · rcases List.mem_singleton.mp h1 with rfl
        exact digitChar_isDigit (n % 10) (Nat.mod_lt _ (by omega))

/-- The decimal renderer never returns the empty list. -/
theorem natToDec_ne_nil (n : Nat) : natToDec n ≠ [] := by
  rw [natToDec]
  split
  · simp
  · simp

/-- The dot character is not among the characters of a decimal rendering. -/
theorem dot_not_mem_natToDec (n : Nat) : '.' ∉ natToDec n := by
  intro h
  have := natToDec_digits n '.' h
  simp at this

/-- Parsing distributes over list append in the expected monadic way. -/
theorem parseDigitsAcc_append (xs ys : List Char) :
    ∀ acc, parseDigitsAcc acc (xs ++ ys) =
      (parseDigitsAcc acc xs).bind (fun m => parseDigitsAcc m ys) := by
  induction xs with
  | nil => intro acc; simp [parseDigitsAcc]
  | cons c cs ih =>
    intro acc
    simp only [List.cons_append, parseDigitsAcc]
    cases digVal c with
    | none => simp
    | some d => exact ih _

/-- Parsing the decimal rendering of n with accumulator acc yields the
accumulator shifted by the number of digits plus n. -/
theorem parseDigitsAcc_natToDec (n : Nat) :
    ∀ acc, parseDigitsAcc acc (natToDec n) =
      some (acc * 10 ^ (natToDec n).length + n) := by
  induction n using Nat.strong_induction_on with
  | _ n ih =>
    intro acc
    rw [natToDec]
    split
    · have hn : n < 10 := by assumption
      have hd : digVal (digitChar n) = some n := digVal_digitChar n hn
      simp [parseDigitsAcc, hd]
    · have hn : ¬ n < 10 := by assumption
      have hm : n % 10 < 10 := Nat.mod_lt _ (by omega)
      have hd : digVal (digitChar (n % 10)) = some (n % 10) :=
        digVal_digitChar _ hm
      rw [parseDigitsAcc_append]
      rw [ih (n / 10) (by omega) acc]
      simp only [Option.some_bind, parseDigitsAcc, hd, List.length_append,
        List.length_singleton]
      congr 1
      have hdm : n / 10 * 10 + n % 10 = n := by omega
      calc (acc * 10 ^ (natToDec (n / 10)).length + n / 10) * 10 + n % 10
          = acc * (10 ^ (natToDec (n / 10)).length * 10) +
              (n / 10 * 10 + n % 10) := by ring
        _ = acc * 10 ^ ((natToDec (n / 10)).length + 1) + n := by
              rw [hdm, pow_succ]

/-- The JavaScript Number conversion inverts the decimal renderer. -/
theorem jsNum_natToDec (n : Nat) : jsNum (natToDec n) = some n := by
  have := parseDigitsAcc_natToDec n 0
  simpa [jsNum] using this

/-- Splitting never produces the empty list of pieces. -/
theorem splitDot_ne_nil (cs : List Char) : splitDot cs ≠ [] := by
  cases cs with
  | nil => simp [splitDot]
  | cons c rest =>
    simp only [splitDot]
    cases h : splitDot rest with
    | nil => simp
    | cons g gs =>
      by_cases hc : c = '.' <;> simp [hc]

/-- A dot-free character list splits into the single piece it is. -/
theorem splitDot_no_dot (cs : List Char) (h : '.' ∉ cs) : splitDot cs = [cs] := by
  induction cs with
  | nil => rfl
  | cons c rest ih =>
    have hc : c ≠ '.' := by intro e; exact h (by simp [e])
    have hr : '.' ∉ rest := by intro e; exact h (by simp [e])
    simp only [splitDot]
    rw [ih hr]
    simp [hc]

/-- Splitting a list headed by a dot-free chunk followed by a dot peels off
that chunk as the first piece. -/
theorem splitDot_append (xs ys : List Char) (h : '.' ∉ xs) :
    splitDot (xs ++ '.' :: ys) = xs :: splitDot ys := by
  induction xs with
  | nil =>
    simp only [List.nil_append, splitDot]
    cases hy : splitDot ys with
    | nil => exact absurd hy (splitDot_ne_nil ys)
    | cons g gs => simp [← hy]
  | cons x xs ih =>
    have hx : x ≠ '.' := by intro e; exact h (by simp [e])
    have hxs : '.' ∉ xs := by intro e; exact h (by simp [e])
    simp only [List.cons_append, splitDot, List.append_eq]
    rw [ih hxs]
    simp [hx]

/-- Splitting a canonical dotted quad yields exactly the four octet texts. -/
theorem splitDot_ip4 (a b c d : Nat) :
    splitDot (ip4Chars a b c d) =
      [natToDec a, natToDec b, natToDec c, natToDec d] := by
  unfold ip4Chars
  rw [splitDot_append _ _ (dot_not_mem_natToDec a),
      splitDot_append _ _ (dot_not_mem_natToDec b),
      splitDot_append _ _ (dot_not_mem_natToDec c),
      splitDot_no_dot _ (dot_not_mem_natToDec d)]

/-- List form of a literal string, stated once for rewriting. -/
theorem mappedPrefix_chars :
    mappedPrefix = ':' :: ':' :: 'f' :: 'f' :: 'f' :: 'f' :: [':'] := rfl

/-- The character list underlying a constructed string. -/
theorem toList_mk (l : List Char) : (String.mk l).toList = l := rfl

/-- A prefix whose head differs from the head of the target never matches. -/
theorem startsWithChars_cons_of_ne {p c : Char} (ps cs : List Char)
    (h : p ≠ c) : startsWithChars (p :: ps) (c :: cs) = false := by
  have hb : (p == c) = false := beq_eq_false_iff_ne.mpr h
  simp [startsWithChars, hb]

/-- A list always starts with itself, whatever follows. -/
theorem startsWithChars_append_self (ps cs : List Char) :
    startsWithChars ps (ps ++ cs) = true := by
  induction ps with
  | nil => rfl
  | cons p ps ih => simp [startsWithChars, ih]

/-- Splitting a list headed by a non-dot character prepends that character
to the first piece of the tail split. -/
theorem splitDot_cons_ne (c : Char) (l : List Char) (hc : c ≠ '.') :
    ∃ g gs, splitDot l = g :: gs ∧ splitDot (c :: l) = (c :: g) :: gs := by
  cases h : splitDot l with
  | nil => exact absurd h (splitDot_ne_nil l)
  | cons g gs =>
    refine ⟨g, gs, rfl, ?_⟩
    simp [splitDot, h, hc]

/-- The Number conversion of any piece starting with a non-digit is NaN. -/
theorem jsNum_cons_nondigit (c : Char) (l : List Char)
    (h : c.isDigit = false) : jsNum (c :: l) = none := by
  simp [jsNum, parseDigitsAcc, digVal, h]

/-- None of the IPv4 range conditions can hold on a NaN first octet. -/
theorem ipv4PrivateCheck_none (b : Option Nat) :
    ipv4PrivateCheck none b = false := rfl

/-- The IPv4 branch is false whenever the first piece is NaN. -/
theorem ipv4OfNums_none (tail : List (Option Nat)) :
    ipv4OfNums (none :: tail) = false := by
  rcases tail with _ | ⟨x1, _ | ⟨x2, _ | ⟨x3, _ | ⟨x4, t⟩⟩⟩⟩ <;> rfl

/-- On an input headed by a non-digit, non-dot character the classifier
reduces to its IPv6 checks. -/
theorem classifyChars_nondigit_head (c : Char) (rest : List Char)
    (h1 : c.isDigit = false) (h2 : c ≠ '.') :
    classifyChars (c :: rest) =
      (if (c :: rest) = "::1".toList then true
       else if startsWithChars "fe80".toList (c :: rest) then true
       else if startsWithChars "fc".toList (c :: rest) then true
       else if startsWithChars "fd".toList (c :: rest) then true
       else false) := by
  unfold classifyChars
  obtain ⟨g, gs, hg, hcons⟩ := splitDot_cons_ne c rest h2
  rw [hcons]
  simp only [List.map_cons, jsNum_cons_nondigit c g h1, ipv4OfNums_none]
  simp

/-- A digit character is not a colon. -/
theorem digit_ne_colon {c : Char} (h : c.isDigit = true) : c ≠ ':' := by
  intro e
  subst e
  exact absurd h (by decide)

/-- A digit character is not the letter f. -/
theorem digit_ne_f {c : Char} (h : c.isDigit = true) : c ≠ 'f' := by
  intro e
  subst e
  exact absurd h (by decide)

/-- The decimal rendering of a number starts with a digit character. -/
theorem natToDec_head (a : Nat) :
    ∃ c cs, natToDec a = c :: cs ∧ c.isDigit = true := by
  cases h : natToDec a with
  | nil => exact absurd h (natToDec_ne_nil a)
  | cons c cs =>
    refine ⟨c, cs, rfl, ?_⟩
    exact natToDec_digits a c (by rw [h]; simp)

/-- The classifier applied to a non-empty input that does not carry the
IPv4-mapped prefix skips the strip. -/
theorem isPrivateIPChars_not_mapped (l : List Char) (h1 : l ≠ [])
    (h2 : startsWithChars mappedPrefix l = false) :
    isPrivateIPChars l = classifyChars l := by
  simp [isPrivateIPChars, h1, h2]

/-- The classifier applied to an input carrying the IPv4-mapped prefix
strips the first seven characters before classifying. -/
theorem isPrivateIPChars_mapped (l : List Char) (h1 : l ≠ [])
    (h2 : startsWithChars mappedPrefix l = true) :
    isPrivateIPChars l = classifyChars (l.drop 7) := by
  simp [isPrivateIPChars, h1, h2]

/-- The classifier on a canonical dotted quad reduces to the IPv4 range
conditions on the first two octets. -/
theorem classifyChars_ip4 (a b c d : Nat) :
    classifyChars (ip4Chars a b c d) = ipv4PrivateCheck (some a) (some b) := by
  unfold classifyChars
  rw [splitDot_ip4]
  simp only [List.map_cons, List.map_nil, jsNum_natToDec]
  obtain ⟨c0, cs0, h0, hdig⟩ := natToDec_head a
  have hne : ip4Chars a b c d = c0 :: (cs0 ++ '.' ::
      (natToDec b ++ '.' :: (natToDec c ++ '.' :: natToDec d))) := by
    unfold ip4Chars
    rw [h0]
    simp
  have hcolon : c0 ≠ ':' := digit_ne_colon hdig
  have hf : c0 ≠ 'f' := digit_ne_f hdig
  cases hP : ipv4PrivateCheck (some a) (some b) with
  | true =>
    have hOf : ipv4OfNums [some a, some b, some c, some d] = true := hP
    simp [hOf]
  | false =>
    have hOf : ipv4OfNums [some a, some b, some c, some d] = false := hP
    have e1 : (ip4Chars a b c d = "::1".toList) = False := by
      rw [hne, show "::1".toList = [':', ':', '1'] from rfl]
      simp [hcolon]
    have e2 : startsWithChars "fe80".toList (ip4Chars a b c d) = false := by
      rw [hne, show "fe80".toList = ['f', 'e', '8', '0'] from rfl]
      exact startsWithChars_cons_of_ne _ _ (Ne.symm hf)
    have e3 : startsWithChars "fc".toList (ip4Chars a b c d) = false := by
      rw [hne, show "fc".toList = ['f', 'c'] from rfl]
      exact startsWithChars_cons_of_ne _ _ (Ne.symm hf)
    have e4 : startsWithChars "fd".toList (ip4Chars a b c d) = false := by
      rw [hne, show "fd".toList = ['f', 'd'] from rfl]
      exact startsWithChars_cons_of_ne _ _ (Ne.symm hf)
    simp only [hOf, e1, e2, e3, e4, Bool.false_eq_true, if_false]

/-- The private classifier on a canonical dotted quad is exactly the IPv4
range test on its first two octets. -/
theorem isPrivateIP_ip4 (a b c d : Nat) :
    isPrivateIP (ip4Str a b c d) = ipv4PrivateCheck (some a) (some b) := by
  unfold isPrivateIP ip4Str
  rw [toList_mk]
  obtain ⟨c0, cs0, h0, hdig⟩ := natToDec_head a
  have hne : ip4Chars a b c d = c0 :: (cs0 ++ '.' ::
      (natToDec b ++ '.' :: (natToDec c ++ '.' :: natToDec d))) := by
    unfold ip4Chars
    rw [h0]
    simp
  have hnil : ip4Chars a b c d ≠ [] := by
    rw [hne]
    simp
  have hpre : startsWithChars mappedPrefix (ip4Chars a b c d) = false := by
    rw [hne, mappedPrefix_chars]
    exact startsWithChars_cons_of_ne _ _ (Ne.symm (digit_ne_colon hdig))
  rw [isPrivateIPChars_not_mapped _ hnil hpre]
  exact classifyChars_ip4 a b c d

/-- An IPv4-mapped address built over a canonical dotted quad is classified
exactly as the unwrapped quad. -/
theorem isPrivateIP_mapped_ip4 (a b c d : Nat) :
    isPrivateIP (mappedIp4Str a b c d) = isPrivateIP (ip4Str a b c d) := by
  unfold mappedIp4Str isPrivateIP
  rw [toList_mk]
  have hnil : mappedPrefix ++ ip4Chars a b c d ≠ [] := by
    simp [mappedPrefix_chars]
  have hpre : startsWithChars mappedPrefix (mappedPrefix ++ ip4Chars a b c d) = true :=
    startsWithChars_append_self _ _
  rw [isPrivateIPChars_mapped _ hnil hpre]
  have hdrop : (mappedPrefix ++ ip4Chars a b c d).drop 7 = ip4Chars a b c d := by
    rw [show (7 : Nat) = mappedPrefix.length from rfl]
    exact List.drop_left _ _
  rw [hdrop, classifyChars_ip4]
  exact (isPrivateIP_ip4 a b c d).symm

/-- Any address text starting with the link-local marker is private. -/
theorem isPrivateIP_fe80 (s : String) : isPrivateIP ("fe80" ++ s) = true := by
  show isPrivateIPChars ('f' :: 'e' :: '8' :: '0' :: s.toList) = true
  have hnil : ('f' :: 'e' :: '8' :: '0' :: s.toList) ≠ [] := by simp
  have hpre : startsWithChars mappedPrefix
      ('f' :: 'e' :: '8' :: '0' :: s.toList) = false := by
    rw [mappedPrefix_chars]
    exact startsWithChars_cons_of_ne _ _ (by decide)
  rw [isPrivateIPChars_not_mapped _ hnil hpre]
  rw [classifyChars_nondigit_head 'f' _ (by decide) (by decide)]
  have h1 : (('f' :: 'e' :: '8' :: '0' :: s.toList) = "::1".toList) = False := by
    rw [show "::1".toList = [':', ':', '1'] from rfl]
    simp
  have hfe : startsWithChars "fe80".toList
      ('f' :: 'e' :: '8' :: '0' :: s.toList) = true := by
    rw [show "fe80".toList = ['f', 'e', '8', '0'] from rfl]
    exact startsWithChars_append_self ['f', 'e', '8', '0'] s.toList
  simp only [h1, if_false, hfe, if_true]

/-- Any address text starting with the first unique-local marker is private. -/
theorem isPrivateIP_fc (s : String) : isPrivateIP ("fc" ++ s) = true := by
  show isPrivateIPChars ('f' :: 'c' :: s.toList) = true
  have hnil : ('f' :: 'c' :: s.toList) ≠ [] := by simp
  have hpre : startsWithChars mappedPrefix ('f' :: 'c' :: s.toList) = false := by
    rw [mappedPrefix_chars]
    exact startsWithChars_cons_of_ne _ _ (by decide)
  rw [isPrivateIPChars_not_mapped _ hnil hpre]
  rw [classifyChars_nondigit_head 'f' _ (by decide) (by decide)]
  have h1 : (('f' :: 'c' :: s.toList) = "::1".toList) = False := by
    rw [show "::1".toList = [':', ':', '1'] from rfl]
    simp
  have hec : ('e' == 'c') = false := by decide
  have hfe : startsWithChars "fe80".toList ('f' :: 'c' :: s.toList) = false := by
    rw [show "fe80".toList = ['f', 'e', '8', '0'] from rfl]
    simp [startsWithChars, hec]
  have hfc : startsWithChars "fc".toList ('f' :: 'c' :: s.toList) = true := by
    rw [show "fc".toList = ['f', 'c'] from rfl]
    exact startsWithChars_append_self ['f', 'c'] s.toList
  simp only [h1, if_false, hfe, Bool.false_eq_true, hfc, if_true]

/-- Any address text starting with the second unique-local marker is
private. -/
theorem isPrivateIP_fd (s : String) : isPrivateIP ("fd" ++ s) = true := by
  show isPrivateIPChars ('f' :: 'd' :: s.toList) = true
  have hnil : ('f' :: 'd' :: s.toList) ≠ [] := by simp
  have hpre : startsWithChars mappedPrefix ('f' :: 'd' :: s.toList) = false := by
    rw [mappedPrefix_chars]
    exact startsWithChars_cons_of_ne _ _ (by decide)
  rw [isPrivateIPChars_not_mapped _ hnil hpre]
  rw [classifyChars_nondigit_head 'f' _ (by decide) (by decide)]
  have h1 : (('f' :: 'd' :: s.toList) = "::1".toList) = False := by
    rw [show "::1".toList = [':', ':', '1'] from rfl]
    simp
  have hed : ('e' == 'd') = false := by decide
  have hcd : ('c' == 'd') = false := by decide
  have hfe : startsWithChars "fe80".toList ('f' :: 'd' :: s.toList) = false := by
    rw [show "fe80".toList = ['f', 'e', '8', '0'] from rfl]
    simp [startsWithChars, hed]
  have hfc : startsWithChars "fc".toList ('f' :: 'd' :: s.toList) = false := by
    rw [show "fc".toList = ['f', 'c'] from rfl]
    simp [startsWithChars, hcd]
  have hfd : startsWithChars "fd".toList ('f' :: 'd' :: s.toList) = true := by
    rw [show "fd".toList = ['f', 'd'] from rfl]
    exact startsWithChars_append_self ['f', 'd'] s.toList
  simp only [h1, if_false, hfe, hfc, Bool.false_eq_true, hfd, if_true]

/-- The 172.16.0.0/12 conjunct on canonical quads. -/
theorem isPrivateIP_172 (b c d : Nat) (h16 : 16 ≤ b) (h31 : b ≤ 31) :
    isPrivateIP (ip4Str 172 b c d) = true := by
  rw [isPrivateIP_ip4]
  simp only [ipv4PrivateCheck, optInRange]
  rw [decide_eq_true h16, decide_eq_true h31]
  simp

/-- C1: the SSRF guard allows a hostname exactly when DNS resolution
succeeds and every resolved address is classified non-private; a lookup
failure or any single private address among the results denies the
hostname. -/
theorem resolveAndCheck_allows_iff (dns : String → Option (List String))
    (hostname : String) :
    resolveAndCheck dns hostname = true ↔
      ∃ addresses, dns hostname = some addresses ∧
        ∀ a ∈ addresses, isPrivateIP a = false := by
  unfold resolveAndCheck
  cases hd : dns hostname with
  | none => simp
  | some addrs =>
    simp only [List.all_eq_true, Bool.not_eq_true']
    constructor
    · intro hall
      exact ⟨addrs, rfl, hall⟩
    · rintro ⟨as, heq, hall⟩
      cases Option.some.inj heq
      exact hall

/-- C2: the private classifier accepts every canonical address in
10.0.0.0/8, 172.16.0.0/12, 192.168.0.0/16, 127.0.0.0/8 and 169.254.0.0/16,
the IPv6 loopback, link-local and unique-local text forms, classifies an
IPv4-mapped IPv6 address exactly as its unwrapped IPv4 form, and rejects
the public address 8.8.8.8. -/
theorem isPrivateIP_ranges :
    (∀ b c d, isPrivateIP (ip4Str 10 b c d) = true) ∧
    (∀ b c d, 16 ≤ b → b ≤ 31 → isPrivateIP (ip4Str 172 b c d) = true) ∧
    (∀ c d, isPrivateIP (ip4Str 192 168 c d) = true) ∧
    (∀ b c d, isPrivateIP (ip4Str 127 b c d) = true) ∧
    (∀ c d, isPrivateIP (ip4Str 169 254 c d) = true) ∧
    isPrivateIP "::1" = true ∧
    (∀ s, isPrivateIP ("fe80" ++ s) = true) ∧
    (∀ s, isPrivateIP ("fc" ++ s) = true) ∧
    (∀ s, isPrivateIP ("fd" ++ s) = true) ∧
    (∀ a b c d, isPrivateIP (mappedIp4Str a b c d) = isPrivateIP (ip4Str a b c d)) ∧
    isPrivateIP "8.8.8.8" = false := by
  refine ⟨?_, ?_, ?_, ?_, ?_, ?_, ?_, ?_, ?_, ?_, ?_⟩
  · intro b c d
    rw [isPrivateIP_ip4]
    rfl
  · exact isPrivateIP_172
  · intro c d
    rw [isPrivateIP_ip4]
    rfl
  · intro b c d
    rw [isPrivateIP_ip4]
    rfl
  · intro c d
    rw [isPrivateIP_ip4]
    rfl
  · decide
  · exact isPrivateIP_fe80
  · exact isPrivateIP_fc
  · exact isPrivateIP_fd
  · exact isPrivateIP_mapped_ip4
  · decide

/-- Witness instantiating the hypotheses of the range theorem at concrete
addresses from the specification examples. -/
theorem isPrivateIP_ranges_witness :
    isPrivateIP (ip4Str 172 20 0 1) = true ∧
    isPrivateIP (ip4Str 10 0 0 1) = true ∧
    ip4Str 172 20 0 1 = "172.20.0.1" := by
  refine ⟨isPrivateIP_ranges.2.1 20 0 1 (by decide) (by decide),
    isPrivateIP_ranges.1 0 0 1, by simp [ip4Str, ip4Chars, natToDec, digitChar]⟩

/-- C10: an empty or absent address is classified private, so the guard
denies a hostname if the resolver hands back an empty address string. -/
theorem isPrivateIP_fail_closed :
    isPrivateIPJS none = true ∧ isPrivateIP "" = true ∧
      resolveAndCheck (fun _ => some [""]) "internal.example" = false := by
  exact ⟨rfl, by decide, by decide⟩

/-- A string with every character lowercased. -/
def lowerStr (s : String) : String := String.mk (lowerChars s)

/-- The value classification the rewriter leaves unchanged: the source
tests the value against a case-insensitive anchored alternation of the
data, javascript, mailto and tel schemes and the fragment marker. -/
def skipScheme (val : String) : Bool :=
  startsWithChars "data:".toList (lowerChars val) ||
  startsWithChars "javascript:".toList (lowerChars val) ||
  startsWithChars "mailto:".toList (lowerChars val) ||
  startsWithChars "tel:".toList (lowerChars val) ||
  startsWithChars "#".toList (lowerChars val)

/-- The mount path of the Netlify proxy function. -/
def FUNCTION_PATH : String := "/.netlify/functions/proxy"

/-- Embedding of resolveAndProxy from the Netlify function source.  The
standard URL resolution of val against base is the explicit urlResolve
argument, none modelling a constructor throw the source catches, and the
percent encoder is the explicit enc argument.  A falsy (empty) value and a
skip-scheme value are returned unchanged, a resolution failure returns the
value unchanged, and otherwise the proxied form is produced.  The function
is total, so no exception can escape. -/
def resolveAndProxy (urlResolve : String → String → Option String)
    (enc : String → String) (base val : String) : String :=
  if val = "" then val
  else if skipScheme val then val
  else
    match urlResolve val base with
    | some abs => FUNCTION_PATH ++ "?url=" ++ enc abs
    | none => val

/-- C3: every value matching the skip-scheme classification is returned
unchanged, whatever the base and however resolution and encoding behave. -/
theorem resolveAndProxy_skips (urlResolve : String → String → Option String)
    (enc : String → String) (base val : String)
    (h : skipScheme val = true) :
    resolveAndProxy urlResolve enc base val = val := by
  unfold resolveAndProxy
  by_cases he : val = ""
  · simp [he]
  · simp [he, h]

/-- Witness for the skip theorem at a concrete fragment value. -/
theorem resolveAndProxy_skips_witness :
    skipScheme "#frag" = true ∧
      resolveAndProxy (fun v b => some (b ++ v)) (fun s => s)
        "http://x.com/" "#frag" = "#frag" :=
  ⟨by decide, resolveAndProxy_skips _ _ _ _ (by decide)⟩

/-- C4: when relative-to-absolute resolution fails on the value, the value
comes back unchanged; the embedding is a total function, so the attribute
level failure never escapes as an exception. -/
theorem resolveAndProxy_fail_soft (urlResolve : String → String → Option String)
    (enc : String → String) (base val : String)
    (h : urlResolve val base = none) :
    resolveAndProxy urlResolve enc base val = val := by
  unfold resolveAndProxy
  by_cases he : val = ""
  · simp [he]
  · by_cases hs : skipScheme val = true
    · simp [he, hs]
    · simp [he, hs, h]

/-- Witness for the fail-soft theorem with a resolver that always throws. -/
theorem resolveAndProxy_fail_soft_witness :
    (fun (_ _ : String) => (none : Option String)) "::::" "http://x.com/" = none ∧
      resolveAndProxy (fun _ _ => none) (fun s => s) "http://x.com/" "::::" =
        "::::" :=
  ⟨rfl, resolveAndProxy_fail_soft _ _ _ _ rfl⟩

/-- The fixed response-header deny list of the server source. -/
def bannedHeaders : List String :=
  ["content-security-policy", "content-security-policy-report-only",
   "x-frame-options", "set-cookie", "set-cookie2",
   "strict-transport-security"]

/-- Embedding of the header relay loop of the server source: every upstream
header whose lowercased name is on the deny list is dropped, every other
header is copied to the outgoing response. -/
def sanitizeHeaders (hs : List (String × String)) : List (String × String) :=
  hs.filter (fun h => !(bannedHeaders.contains (lowerStr h.1)))

/-- C5: a header survives sanitization exactly when it came from upstream
and its lowercased name is not on the deny list; in particular the relayed
set never contains a denied name in any capitalization, and every other
upstream header is copied. -/
theorem sanitizeHeaders_mem_iff (hs : List (String × String))
    (h : String × String) :
    h ∈ sanitizeHeaders hs ↔ h ∈ hs ∧ lowerStr h.1 ∉ bannedHeaders := by
  simp [sanitizeHeaders, List.mem_filter]

/-- An element of the parsed HTML tree: a tag name and its attribute list.
The cheerio abstraction is flattened to the list of elements the rewriting
passes visit; attribute names are stored lowercased as the parser yields
them. -/
structure Element where
  tag : String
  attrs : List (String × String)
deriving DecidableEq

/-- The parsed document as the list of its elements in document order. -/
abbrev Document := List Element

/-- Attribute lookup, modelling the cheerio attr getter: the value when the
attribute is present, none when absent. -/
def getAttr (el : Element) (k : String) : Option String :=
  (el.attrs.find? fun p => p.1 == k).map (fun p => p.2)

/-- Attribute update on the underlying list: replace the first binding of
the name in place, append when absent; models the cheerio attr setter. -/
def setAttrList : List (String × String) → String → String → List (String × String)
  | [], k, v => [(k, v)]
  | p :: rest, k, v =>
    if p.1 = k then (k, v) :: rest else p :: setAttrList rest k v

/-- Attribute update on an element. -/
def setAttr (el : Element) (k v : String) : Element :=
  ⟨el.tag, setAttrList el.attrs k v⟩

/-- The anchor pass of the Netlify rewriter: for every anchor element whose
href attribute is present and truthy (non-empty), rewrite the href and then
set rel; all other elements are untouched. -/
def rewriteAnchor (urlResolve : String → String → Option String)
    (enc : String → String) (base : String) (el : Element) : Element :=
  if el.tag = "a" then
    match getAttr el "href" with
    | some href =>
      if href = "" then el
      else setAttr (setAttr el "href" (resolveAndProxy urlResolve enc base href))
        "rel" "noreferrer noopener"
    | none => el
  else el

/-- The src pass: every element with a truthy src attribute has it
rewritten, whatever its tag. -/
def rewriteSrc (urlResolve : String → String → Option String)
    (enc : String → String) (base : String) (el : Element) : Element :=
  match getAttr el "src" with
  | some src =>
    if src = "" then el
    else setAttr el "src" (resolveAndProxy urlResolve enc base src)
  | none => el

/-- The stylesheet pass: every link element with a truthy href attribute
has it rewritten. -/
def rewriteLink (urlResolve : String → String → Option String)
    (enc : String → String) (base : String) (el : Element) : Element :=
  if el.tag = "link" then
    match getAttr el "href" with
    | some href =>
      if href = "" then el
      else setAttr el "href" (resolveAndProxy urlResolve enc base href)
    | none => el
  else el

/-- The meta elements removed by the rewriter: those declaring a
Content-Security-Policy. -/
def isCSPMeta (el : Element) : Bool :=
  el.tag == "meta" && getAttr el "http-equiv" == some "Content-Security-Policy"

/-- The composite per-element transformation of the three passes. -/
def rewriteElement (urlResolve : String → String → Option String)
    (enc : String → String) (base : String) (el : Element) : Element :=
  rewriteLink urlResolve enc base
    (rewriteSrc urlResolve enc base (rewriteAnchor urlResolve enc base el))

/-- The Link Rewriter over the whole document: the anchor pass, the src
pass, the stylesheet pass, then removal of CSP meta elements, in source
order. -/
def rewriteDocument (urlResolve : String → String → Option String)
    (enc : String → String) (base : String) (doc : Document) : Document :=
  ((((doc.map (rewriteAnchor urlResolve enc base)).map
      (rewriteSrc urlResolve enc base)).map
      (rewriteLink urlResolve enc base)).filter
      (fun el => !(isCSPMeta el)))

/-- The document rewrite is the per-element transformation followed by the
CSP filter. -/
theorem rewriteDocument_eq_map_filter (urlResolve : String → String → Option String)
    (enc : String → String) (base : String) (doc : Document) :
    rewriteDocument urlResolve enc base doc =
      (doc.map (rewriteElement urlResolve enc base)).filter
        (fun el => !(isCSPMeta el)) := by
  unfold rewriteDocument rewriteElement
  rw [List.map_map, List.map_map]
  rfl

/-- Looking up the key just set finds the new binding. -/
theorem setAttrList_find_same (l : List (String × String)) (k v : String) :
    (setAttrList l k v).find? (fun p => p.1 == k) = some (k, v) := by
  induction l with
  | nil => simp [setAttrList, List.find?]
  | cons p rest ih =>
    by_cases hp : p.1 = k
    · simp [setAttrList, hp, List.find?]
    · have hb : (p.1 == k) = false := beq_eq_false_iff_ne.mpr hp
      simp [setAttrList, hp, List.find?, hb, ih]

/-- Looking up a different key is unaffected by an attribute update. -/
theorem setAttrList_find_other (k' k : String) (hne : k' ≠ k)
    (l : List (String × String)) (v : String) :
    (setAttrList l k v).find? (fun p => p.1 == k') =
      l.find? (fun p => p.1 == k') := by
  induction l with
  | nil =>
    have hb : (k == k') = false := beq_eq_false_iff_ne.mpr (Ne.symm hne)
    simp [setAttrList, List.find?, hb]
  | cons p rest ih =>
    by_cases hp : p.1 = k
    · have hbp : (p.1 == k') = false := by
        rw [hp]
        exact beq_eq_false_iff_ne.mpr (Ne.symm hne)
      have hbk : (k == k') = false := beq_eq_false_iff_ne.mpr (Ne.symm hne)
      simp [setAttrList, hp, List.find?, hbp, hbk]
    · by_cases hq : p.1 = k'
      · have hbp : (p.1 == k') = true := by rw [hq]; simp
        simp [setAttrList, hp, List.find?, hbp]
      · have hbp : (p.1 == k') = false := beq_eq_false_iff_ne.mpr hq
        simp [setAttrList, hp, List.find?, hbp, ih]

/-- Reading back the attribute just set yields the new value. -/
theorem getAttr_setAttr_same (el : Element) (k v : String) :
    getAttr (setAttr el k v) k = some v := by
  unfold getAttr setAttr
  rw [setAttrList_find_same]
  rfl

/-- Reading any other attribute is unaffected by an attribute update. -/
theorem getAttr_setAttr_other (el : Element) (k v k' : String)
    (hne : k' ≠ k) : getAttr (setAttr el k v) k' = getAttr el k' := by
  unfold getAttr setAttr
  rw [setAttrList_find_other k' k hne]

/-- Attribute updates leave the tag unchanged. -/
theorem tag_setAttr (el : Element) (k v : String) :
    (setAttr el k v).tag = el.tag := rfl

/-- The src pass never changes the tag nor the rel and href attributes. -/
theorem rewriteSrc_preserves (urlResolve : String → String → Option String)
    (enc : String → String) (base : String) (el : Element) :
    (rewriteSrc urlResolve enc base el).tag = el.tag ∧
    getAttr (rewriteSrc urlResolve enc base el) "rel" = getAttr el "rel" ∧
    getAttr (rewriteSrc urlResolve enc base el) "href" = getAttr el "href" := by
  unfold rewriteSrc
  rcases h : getAttr el "src" with _ | s
  · exact ⟨rfl, rfl, rfl⟩
  · by_cases hs : s = ""
    · simp [hs]
    · refine ⟨?_, ?_, ?_⟩
      · show (if s = "" then el else setAttr el "src"
            (resolveAndProxy urlResolve enc base s)).tag = el.tag
        rw [if_neg hs, tag_setAttr]
      · show getAttr (if s = "" then el else setAttr el "src"
            (resolveAndProxy urlResolve enc base s)) "rel" = getAttr el "rel"
        rw [if_neg hs]
        exact getAttr_setAttr_other _ _ _ _ (by decide)
      · show getAttr (if s = "" then el else setAttr el "src"
            (resolveAndProxy urlResolve enc base s)) "href" = getAttr el "href"
        rw [if_neg hs]
        exact getAttr_setAttr_other _ _ _ _ (by decide)

/-- The stylesheet pass leaves anchor elements untouched. -/
theorem rewriteLink_skip_anchor (urlResolve : String → String → Option String)
    (enc : String → String) (base : String) (el : Element)
    (htag : el.tag = "a") : rewriteLink urlResolve enc base el = el := by
  unfold rewriteLink
  have hne : ¬ el.tag = "link" := by
    rw [htag]
    decide
  rw [if_neg hne]

/-- The composite transformation on an anchor with a non-empty href keeps
the tag, sets rel, and routes the href through the rewrite. -/
theorem rewriteElement_anchor (urlResolve : String → String → Option String)
    (enc : String → String) (base : String) (el : Element)
    (htag : el.tag = "a") (href : String)
    (hhref : getAttr el "href" = some href) (hne : href ≠ "") :
    (rewriteElement urlResolve enc base el).tag = "a" ∧
    getAttr (rewriteElement urlResolve enc base el) "rel" =
      some "noreferrer noopener" ∧
    getAttr (rewriteElement urlResolve enc base el) "href" =
      some (resolveAndProxy urlResolve enc base href) := by
  have ha : rewriteAnchor urlResolve enc base el =
      setAttr (setAttr el "href" (resolveAndProxy urlResolve enc base href))
        "rel" "noreferrer noopener" := by
    simp [rewriteAnchor, htag, hhref, hne]
  have htagA : (setAttr (setAttr el "href"
      (resolveAndProxy urlResolve enc base href))
      "rel" "noreferrer noopener").tag = "a" := by
    rw [tag_setAttr, tag_setAttr]
    exact htag
  have hrelA : getAttr (setAttr (setAttr el "href"
      (resolveAndProxy urlResolve enc base href))
      "rel" "noreferrer noopener") "rel" = some "noreferrer noopener" :=
    getAttr_setAttr_same _ _ _
  have hhrefA : getAttr (setAttr (setAttr el "href"
      (resolveAndProxy urlResolve enc base href))
      "rel" "noreferrer noopener") "href" =
      some (resolveAndProxy urlResolve enc base href) := by
    rw [getAttr_setAttr_other _ _ _ _ (by decide)]
    exact getAttr_setAttr_same _ _ _
  obtain ⟨htB, hrB, hhB⟩ := rewriteSrc_preserves urlResolve enc base
    (setAttr (setAttr el "href" (resolveAndProxy urlResolve enc base href))
      "rel" "noreferrer noopener")
  have htagB : (rewriteSrc urlResolve enc base
      (setAttr (setAttr el "href" (resolveAndProxy urlResolve enc base href))
        "rel" "noreferrer noopener")).tag = "a" := by
    rw [htB]
    exact htagA
  unfold rewriteElement
  rw [ha, rewriteLink_skip_anchor _ _ _ _ htagB]
  refine ⟨htagB, ?_, ?_⟩
  · rw [hrB]
    exact hrelA
  · rw [hhB]
    exact hhrefA

/-- A one-element document: an anchor carrying an empty href attribute. -/
def emptyHrefDoc : Document := [⟨"a", [("href", "")]⟩]

/-- C8 counterexample: the rewriter leaves an anchor with an empty href
attribute untouched, so the rewritten document contains an anchor element
that has an href attribute but no rel attribute at all: the claim that
every anchor with an href ends up with rel set is false as stated. -/
theorem rewritten_anchor_missing_rel :
    rewriteDocument (fun v _ => some v) (fun s => s) "http://example.com/"
        emptyHrefDoc = emptyHrefDoc ∧
    (∃ el ∈ rewriteDocument (fun v _ => some v) (fun s => s)
        "http://example.com/" emptyHrefDoc,
      el.tag = "a" ∧ (getAttr el "href").isSome = true ∧
        getAttr el "rel" ≠ some "noreferrer noopener") := by
  decide

/-- C8 amended: every anchor element of the document with a non-empty href
attribute appears in the rewritten document with rel set to
noreferrer noopener and with its href passed through resolveAndProxy;
anchors whose href attribute is empty are the only exception, being left
unchanged by the source's falsiness test. -/
theorem rewritten_anchors_rel (urlResolve : String → String → Option String)
    (enc : String → String) (base : String) (doc : Document) (el : Element)
    (hmem : el ∈ doc) (htag : el.tag = "a") (href : String)
    (hhref : getAttr el "href" = some href) (hne : href ≠ "") :
    rewriteElement urlResolve enc base el ∈
      rewriteDocument urlResolve enc base doc ∧
    (rewriteElement urlResolve enc base el).tag = "a" ∧
    getAttr (rewriteElement urlResolve enc base el) "rel" =
      some "noreferrer noopener" ∧
    getAttr (rewriteElement urlResolve enc base el) "href" =
      some (resolveAndProxy urlResolve enc base href) := by
  obtain ⟨ht, hr, hh⟩ :=
    rewriteElement_anchor urlResolve enc base el htag href hhref hne
  refine ⟨?_, ht, hr, hh⟩
  rw [rewriteDocument_eq_map_filter]
  refine List.mem_filter.mpr ⟨List.mem_map_of_mem _ hmem, ?_⟩
  have hmeta : isCSPMeta (rewriteElement urlResolve enc base el) = false := by
    unfold isCSPMeta
    have hsm : (("a" : String) == "meta") = false := by decide
    rw [ht, hsm]
    rfl
  simp [hmeta]

/-- Witness for the amended anchor theorem on a concrete document. -/
theorem rewritten_anchors_rel_witness :
    rewriteElement (fun v _ => some v) (fun s => s) "http://example.com/"
        ⟨"a", [("href", "/x")]⟩ ∈
      rewriteDocument (fun v _ => some v) (fun s => s) "http://example.com/"
        [⟨"a", [("href", "/x")]⟩] ∧
    getAttr (rewriteElement (fun v _ => some v) (fun s => s)
        "http://example.com/" ⟨"a", [("href", "/x")]⟩) "rel" =
      some "noreferrer noopener" := by
  have h := rewritten_anchors_rel (fun v _ => some v) (fun s => s)
    "http://example.com/" [⟨"a", [("href", "/x")]⟩] ⟨"a", [("href", "/x")]⟩
    (by decide) rfl "/x" (by decide) (by decide)
  exact ⟨h.1, h.2.2.1⟩

/-- The standard base64 alphabet in index order. -/
def b64Alphabet : List Char :=
  "ABCDEFGHIJKLMNOPQRSTUVWXYZabcdefghijklmnopqrstuvwxyz0123456789+/".toList

/-- The alphabet character of a six-bit group. -/
def b64char (n : Nat) : Char := b64Alphabet.getD n 'A'

/-- The six-bit value of an alphabet character. -/
def b64val (c : Char) : Nat := b64Alphabet.indexOf c

/-- Base64 rendering of a byte list, as produced by the Buffer toString
conversion the Netlify handler applies to binary bodies: three bytes per
four characters with the standard trailing padding. -/
def encodeB64 : List Nat → List Char
  | [] => []
  | [a] => [b64char (a / 4), b64char (a % 4 * 16), '=', '=']
  | [a, b] =>
    [b64char (a / 4), b64char (a % 4 * 16 + b / 16), b64char (b % 16 * 4), '=']
  | a :: b :: c :: rest =>
    b64char (a / 4) :: b64char (a % 4 * 16 + b / 16) ::
    b64char (b % 16 * 4 + c / 64) :: b64char (c % 64) :: encodeB64 rest

/-- Standard base64 decoding, the specification-level inverse used to state
the byte-for-byte round trip. -/
def decodeB64 : List Char → List Nat
  | c1 :: c2 :: c3 :: c4 :: rest =>
    if c3 = '=' ∧ c4 = '=' ∧ rest = [] then
      [b64val c1 * 4 + b64val c2 / 16]
    else if c4 = '=' ∧ rest = [] then
      [b64val c1 * 4 + b64val c2 / 16, b64val c2 % 16 * 16 + b64val c3 / 4]
    else
      (b64val c1 * 4 + b64val c2 / 16) ::
      (b64val c2 % 16 * 16 + b64val c3 / 4) ::
      (b64val c3 % 4 * 64 + b64val c4) :: decodeB64 rest
  | _ => []

/-- Decoding inverts the alphabet map on six-bit values. -/
theorem b64val_b64char : ∀ n, n < 64 → b64val (b64char n) = n := by
  decide

/-- No alphabet character is the padding character. -/
theorem b64char_ne_eq : ∀ n, n < 64 → b64char n ≠ '=' := by
  decide

/-- Decoding inverts encoding on every byte list. -/
theorem decodeB64_encodeB64 (bs : List Nat) (h : ∀ x ∈ bs, x < 256) :
    decodeB64 (encodeB64 bs) = bs := by
  induction bs using encodeB64.induct with
  | case1 => rfl
  | case2 a =>
    have ha : a < 256 := h a (by simp)
    simp only [encodeB64, decodeB64]
    rw [if_pos (by simp)]
    rw [b64val_b64char _ (by omega), b64val_b64char _ (by omega)]
    simp only [List.cons.injEq, and_true]
    omega
  | case3 a b =>
    have ha : a < 256 := h a (by simp)
    have hb : b < 256 := h b (by simp)
    simp only [encodeB64, decodeB64]
    have hne : b64char (b % 16 * 4) ≠ '=' := b64char_ne_eq _ (by omega)
    rw [if_neg (fun hcon => hne hcon.1), if_pos (by simp)]
    rw [b64val_b64char _ (by omega), b64val_b64char _ (by omega),
        b64val_b64char _ (by omega)]
    simp only [List.cons.injEq, and_true]
    constructor
    · omega
    · omega
  | case4 a b c rest ih =>
    have ha : a < 256 := h a (by simp)
    have hb : b < 256 := h b (by simp)
    have hc : c < 256 := h c (by simp)
    have hrest : ∀ x ∈ rest, x < 256 := fun x hx => h x (by simp [hx])
    simp only [encodeB64, decodeB64]
    have hne3 : b64char (b % 16 * 4 + c / 64) ≠ '=' := b64char_ne_eq _ (by omega)
    have hne4 : b64char (c % 64) ≠ '=' := b64char_ne_eq _ (by omega)
    rw [if_neg (fun hcon => hne3 hcon.1),
        if_neg (fun hcon => hne4 hcon.1)]
    rw [b64val_b64char _ (by omega), b64val_b64char _ (by omega),
        b64val_b64char _ (by omega), b64val_b64char _ (by omega)]
    rw [ih hrest]
    simp only [List.cons.injEq, and_true]
    refine ⟨by omega, by omega, by omega⟩

/-- Case-insensitive anchored scheme test of the Netlify handler: the
target must start with the http or https scheme followed by slashes. -/
def isHttpUrl (s : String) : Bool :=
  startsWithChars "http://".toList (lowerChars s) ||
  startsWithChars "https://".toList (lowerChars s)

/-- The content-type dispatch test of the Netlify handler: lowercase the
header value and look for the text/html substring. -/
def containsTextHtml (ct : String) : Bool :=
  isSubstr "text/html".toList (lowerChars ct)

/-- An upstream fetch response: status, headers, and the body in both the
text view the HTML branch consumes and the byte view the binary branch
consumes. -/
structure UpstreamResp where
  status : Nat
  headers : List (String × String)
  bodyText : String
  bodyBytes : List Nat

/-- Case-insensitive header lookup, modelling the fetch Headers getter. -/
def headerGet (hs : List (String × String)) (name : String) : Option String :=
  (hs.find? fun p => lowerStr p.1 == lowerStr name).map (fun p => p.2)

/-- The response description a Netlify function returns. -/
structure NetlifyResult where
  statusCode : Nat
  headers : List (String × String)
  isBase64Encoded : Bool
  body : String
deriving DecidableEq

/-- The missing-parameter response of the Netlify handler. -/
def missingUrlResult : NetlifyResult :=
  ⟨400, [], false,
   "Missing url parameter. Usage: /.netlify/functions/proxy?url=https://example.com"⟩

/-- Embedding of the Netlify function handler.  The HTML parser, the
serializer, the cosmetic topbar injection, URL resolution, percent encoding
and the upstream fetch are explicit arguments; an error value of the fetch
models a rejected promise, which the source catch maps to status 500.  A
falsy (missing or empty) url parameter yields the usage response before any
fetch, a non-http(s) target yields 400, an HTML content type (case
insensitive substring test) yields the rewritten markup with the upstream
status and a forced content type, and any other body is relayed
base64-encoded with the upstream status. -/
def netlifyHandler (parse : String → Document) (serialize : Document → String)
    (topbarPrepend : String → Document → Document)
    (urlResolve : String → String → Option String) (enc : String → String)
    (fetch : String → Except String UpstreamResp)
    (url? : Option String) : NetlifyResult :=
  match url? with
  | none => missingUrlResult
  | some target =>
    if target = "" then missingUrlResult
    else if isHttpUrl target = false then
      ⟨400, [], false,
       "Only http(s) URLs are supported. Include http:// or https://"⟩
    else
      match fetch target with
      | Except.error msg => ⟨500, [], false, "Proxy function error: " ++ msg⟩
      | Except.ok u =>
        let contentType := (headerGet u.headers "content-type").getD ""
        let status := if u.status = 0 then 200 else u.status
        if containsTextHtml contentType then
          ⟨status, [("Content-Type", "text/html; charset=utf-8")], false,
           serialize (topbarPrepend target
             (rewriteDocument urlResolve enc target (parse u.bodyText)))⟩
        else
          ⟨status,
           [("Content-Type",
             if contentType = "" then "application/octet-stream"
             else contentType),
            ("Cache-Control", "max-age=3600")],
           true, String.mk (encodeB64 u.bodyBytes)⟩

/-- The fields of a parsed URL the server handler consumes. -/
structure ParsedURL where
  protocol : String
  hostname : String
  href : String
  origin : String
deriving DecidableEq

/-- The body of an Express response: HTML text or piped bytes. -/
inductive ExpressBody where
  | text : String → ExpressBody
  | bytes : List Nat → ExpressBody
deriving DecidableEq

/-- The observable outcome of the server handler: status, the headers set
on the response, the body, and whether an upstream fetch was issued. -/
structure ExpressResult where
  status : Nat
  headers : List (String × String)
  body : ExpressBody
  didFetch : Bool
deriving DecidableEq

/-- The Express header setter: replace the first binding with the same
lowercased name, append otherwise. -/
def resSet : List (String × String) → String → String → List (String × String)
  | [], k, v => [(k, v)]
  | p :: rest, k, v =>
    if lowerStr p.1 = lowerStr k then (k, v) :: rest
    else p :: resSet rest k v

/-- Setting a list of headers in order. -/
def resSetAll (hs add : List (String × String)) : List (String × String) :=
  add.foldl (fun acc p => resSet acc p.1 p.2) hs

/-- Embedding of the server proxy endpoint carrying the SSRF guard.  URL
parsing, the DNS oracle, the upstream fetch and the base-tag injection on
HTML text are explicit arguments.  A falsy url parameter yields 400 before
any fetch, an unparsable URL yields 400, a non-http(s) protocol yields 400,
an allowlist miss yields 403, a guard denial yields 403, a fetch rejection
yields the 502 bad-gateway response, and otherwise the sanitized upstream
headers are set, HTML text is relayed with an injected base tag while any
other body is piped through unchanged with the upstream status. -/
def expressProxy (parseURL : String → Option ParsedURL)
    (allowlist : List String) (dns : String → Option (List String))
    (fetch : String → Except String UpstreamResp)
    (baseInject : String → String → String)
    (url? : Option String) : ExpressResult :=
  match url? with
  | none => ⟨400, [], ExpressBody.text "Missing url parameter", false⟩
  | some raw =>
    if raw = "" then ⟨400, [], ExpressBody.text "Missing url parameter", false⟩
    else
      match parseURL raw with
      | none => ⟨400, [], ExpressBody.text "Invalid URL", false⟩
      | some t =>
        if ¬ (t.protocol = "http:" ∨ t.protocol = "https:") then
          ⟨400, [], ExpressBody.text "Invalid protocol", false⟩
        else if allowlist ≠ [] ∧ t.hostname ∉ allowlist then
          ⟨403, [], ExpressBody.text "Host not allowed by server allowlist",
           false⟩
        else if resolveAndCheck dns t.hostname = false then
          ⟨403, [], ExpressBody.text "Access to private/internal IPs is blocked",
           false⟩
        else
          match fetch t.href with
          | Except.error _ => ⟨502, [], ExpressBody.text "Bad gateway", true⟩
          | Except.ok u =>
            let hs := resSetAll [] (sanitizeHeaders u.headers)
            let contentType := (headerGet u.headers "content-type").getD ""
            if isSubstr "text/html".toList contentType.toList then
              ⟨u.status, resSet hs "content-type" "text/html; charset=utf-8",
               ExpressBody.text (baseInject t.origin u.bodyText), true⟩
            else
              ⟨u.status,
               resSet hs "Content-Type"
                 (if contentType = "" then "application/octet-stream"
                  else contentType),
               ExpressBody.bytes u.bodyBytes, true⟩

/-- C6: a request without a url parameter is answered 400 with the usage
body by the Netlify handler and 400 without issuing any fetch by the server
handler, and an upstream fetch rejection after a fully authorized request
is answered 502 Bad gateway. -/
theorem proxy_error_mapping :
    (∀ parse serialize topbarPrepend urlResolve enc fetch,
      netlifyHandler parse serialize topbarPrepend urlResolve enc fetch none =
        missingUrlResult) ∧
    (∀ parseURL allowlist dns fetch baseInject,
      expressProxy parseURL allowlist dns fetch baseInject none =
        ⟨400, [], ExpressBody.text "Missing url parameter", false⟩) ∧
    (∀ parseURL allowlist dns fetch baseInject raw t e,
      raw ≠ "" → parseURL raw = some t →
      (t.protocol = "http:" ∨ t.protocol = "https:") →
      ¬ (allowlist ≠ [] ∧ t.hostname ∉ allowlist) →
      resolveAndCheck dns t.hostname = true →
      fetch t.href = Except.error e →
      expressProxy parseURL allowlist dns fetch baseInject (some raw) =
        ⟨502, [], ExpressBody.text "Bad gateway", true⟩) := by
  refine ⟨fun _ _ _ _ _ _ => rfl, fun _ _ _ _ _ => rfl, ?_⟩
  intro parseURL allowlist dns fetch baseInject raw t e hraw hparse hproto
    hallow hguard hfetch
  simp [expressProxy, hraw, hparse, hproto, hallow, hguard, hfetch]

/-- Witness for the error mapping at a concrete request whose upstream
connection is refused. -/
theorem proxy_error_mapping_witness :
    expressProxy
        (fun _ => some ⟨"http:", "example.com", "http://example.com/",
          "http://example.com"⟩)
        [] (fun _ => some ["93.184.216.34"])
        (fun _ => Except.error "connect ECONNREFUSED")
        (fun _ s => s) (some "http://example.com/") =
      ⟨502, [], ExpressBody.text "Bad gateway", true⟩ := by
  exact proxy_error_mapping.2.2
    (fun _ => some ⟨"http:", "example.com", "http://example.com/",
      "http://example.com"⟩)
    [] (fun _ => some ["93.184.216.34"])
    (fun _ => Except.error "connect ECONNREFUSED") (fun _ s => s)
    "http://example.com/"
    ⟨"http:", "example.com", "http://example.com/", "http://example.com"⟩
    "connect ECONNREFUSED" (by decide) rfl (Or.inl rfl) (by simp)
    (by decide) rfl

/-- C7: an authorized upstream response whose content type contains
text/html in any capitalization is relayed with the upstream status code
verbatim, the forced HTML content type, and the markup produced by the
rewriter. -/
theorem html_passthrough (parse : String → Document)
    (serialize : Document → String)
    (topbarPrepend : String → Document → Document)
    (urlResolve : String → String → Option String) (enc : String → String)
    (fetch : String → Except String UpstreamResp) (target : String)
    (u : UpstreamResp) (hne : target ≠ "") (hhttp : isHttpUrl target = true)
    (hfetch : fetch target = Except.ok u) (hstatus : u.status ≠ 0)
    (hct : containsTextHtml ((headerGet u.headers "content-type").getD "") =
      true) :
    netlifyHandler parse serialize topbarPrepend urlResolve enc fetch
        (some target) =
      ⟨u.status, [("Content-Type", "text/html; charset=utf-8")], false,
       serialize (topbarPrepend target
         (rewriteDocument urlResolve enc target (parse u.bodyText)))⟩ := by
  simp [netlifyHandler, hne, hhttp, hfetch, hct, hstatus]

/-- Witness for the HTML passthrough at a concrete 404 upstream response
with an uppercased content type. -/
theorem html_passthrough_witness :
    netlifyHandler (fun _ => []) (fun _ => "rewritten") (fun _ d => d)
        (fun v _ => some v) (fun s => s)
        (fun _ => Except.ok ⟨404, [("Content-Type", "TEXT/HTML")],
          "<html></html>", []⟩)
        (some "http://example.com/") =
      ⟨404, [("Content-Type", "text/html; charset=utf-8")], false,
       "rewritten"⟩ := by
  exact html_passthrough (fun _ => []) (fun _ => "rewritten") (fun _ d => d)
    (fun v _ => some v) (fun s => s)
    (fun _ => Except.ok ⟨404, [("Content-Type", "TEXT/HTML")],
      "<html></html>", []⟩)
    "http://example.com/"
    ⟨404, [("Content-Type", "TEXT/HTML")], "<html></html>", []⟩
    (by decide) (by decide) rfl (by decide) (by decide)

/-- C9: a non-HTML upstream body reaches the caller byte for byte: the
Netlify handler forwards the upstream status, marks the body as base64 and
the base64 text decodes to exactly the upstream bytes, and the server
handler forwards the upstream status and pipes the upstream bytes
unchanged. -/
theorem binary_roundtrip :
    (∀ parse serialize topbarPrepend urlResolve enc fetch target u,
      target ≠ "" → isHttpUrl target = true →
      fetch target = Except.ok u →
      containsTextHtml ((headerGet u.headers "content-type").getD "") =
        false →
      u.status ≠ 0 → (∀ x ∈ u.bodyBytes, x < 256) →
      (netlifyHandler parse serialize topbarPrepend urlResolve enc fetch
          (some target)).statusCode = u.status ∧
      (netlifyHandler parse serialize topbarPrepend urlResolve enc fetch
          (some target)).isBase64Encoded = true ∧
      decodeB64 (netlifyHandler parse serialize topbarPrepend urlResolve enc
          fetch (some target)).body.toList = u.bodyBytes) ∧
    (∀ parseURL allowlist dns fetch baseInject raw t u,
      raw ≠ "" → parseURL raw = some t →
      (t.protocol = "http:" ∨ t.protocol = "https:") →
      ¬ (allowlist ≠ [] ∧ t.hostname ∉ allowlist) →
      resolveAndCheck dns t.hostname = true →
      fetch t.href = Except.ok u →
      isSubstr "text/html".toList
        ((headerGet u.headers "content-type").getD "").toList = false →
      (expressProxy parseURL allowlist dns fetch baseInject
          (some raw)).status = u.status ∧
      (expressProxy parseURL allowlist dns fetch baseInject
          (some raw)).body = ExpressBody.bytes u.bodyBytes) := by
  constructor
  · intro parse serialize topbarPrepend urlResolve enc fetch target u
      hne hhttp hfetch hct hstatus hbytes
    have hred : netlifyHandler parse serialize topbarPrepend urlResolve enc
        fetch (some target) =
        ⟨u.status,
         [("Content-Type",
           if (headerGet u.headers "content-type").getD "" = ""
           then "application/octet-stream"
           else (headerGet u.headers "content-type").getD ""),
          ("Cache-Control", "max-age=3600")],
         true, String.mk (encodeB64 u.bodyBytes)⟩ := by
      simp [netlifyHandler, hne, hhttp, hfetch, hct, hstatus]
    rw [hred]
    refine ⟨rfl, rfl, ?_⟩
    rw [toList_mk]
    exact decodeB64_encodeB64 u.bodyBytes hbytes
  · intro parseURL allowlist dns fetch baseInject raw t u
      hraw hparse hproto hallow hguard hfetch hct
    have hred : expressProxy parseURL allowlist dns fetch baseInject
        (some raw) =
        ⟨u.status,
         resSet (resSetAll [] (sanitizeHeaders u.headers)) "Content-Type"
           (if (headerGet u.headers "content-type").getD "" = ""
            then "application/octet-stream"
            else (headerGet u.headers "content-type").getD ""),
         ExpressBody.bytes u.bodyBytes, true⟩ := by
      simp [expressProxy, hraw, hparse, hproto, hallow, hguard, hfetch]
      simpa using hct
    rw [hred]
    exact ⟨rfl, rfl⟩

/-- Witness for the byte round trip on a concrete three-byte image body. -/
theorem binary_roundtrip_witness :
    (netlifyHandler (fun _ => []) (fun _ => "") (fun _ d => d)
        (fun v _ => some v) (fun s => s)
        (fun _ => Except.ok ⟨200, [("content-type", "image/png")], "",
          [0, 255, 7]⟩)
        (some "http://example.com/")).statusCode = 200 ∧
    decodeB64 (netlifyHandler (fun _ => []) (fun _ => "") (fun _ d => d)
        (fun v _ => some v) (fun s => s)
        (fun _ => Except.ok ⟨200, [("content-type", "image/png")], "",
          [0, 255, 7]⟩)
        (some "http://example.com/")).body.toList = [0, 255, 7] := by
  have h := binary_roundtrip.1 (fun _ => []) (fun _ => "") (fun _ d => d)
    (fun v _ => some v) (fun s => s)
    (fun _ => Except.ok ⟨200, [("content-type", "image/png")], "",
      [0, 255, 7]⟩)
    "http://example.com/"
    ⟨200, [("content-type", "image/png")], "", [0, 255, 7]⟩
    (by decide) (by decide) rfl (by decide) (by decide) (by decide)
  exact ⟨h.1, h.2.2⟩
